import Mathlib

/-!
Verification of the California-housing prediction service
(`src/model.py` and `main.py`).

The embedding follows the source:
* a request payload is a finite mapping from feature names to Python
  values; a Python value either coerces to a number under `float(...)`
  (modelled as a rational) or raises on coercion;
* the sklearn model artifact is opaque: an ordered numeric row in,
  one numeric prediction out (`List Rat -> Rat`);
* `ModelService.predict_one` is translated with explicit state passing
  (`predict_one_impl` returns the result together with the service and
  payload it was given, since the method body never mutates either);
* `build_default_service` validates the `model2_features` field of the
  JSON metadata record;
* `resolve_existing_path` scans path candidates against an existence
  predicate;
* `predict_endpoint` is the HTTP boundary of `main.py`: it dumps the
  eight-field request model to a payload, calls the service, and either
  translates an error to an HTTP 400 with the error message or, in
  debug mode, re-raises it.
-/

/-- A Python value as seen by `float(...)`: either a numerically
coercible value (int, float, numeric string, ...), abstracted by the
rational it coerces to, or a value on which `float(...)` raises
(e.g. a non-numeric string). -/
inductive PyVal where
  | num (q : ℚ)
  | nonNum
deriving DecidableEq, Repr

/-- `float(v)`: the rational a coercible value denotes, `none` when
coercion raises. -/
def PyVal.toFloat : PyVal → Option ℚ
  | PyVal.num q => some q
  | PyVal.nonNum => none

/-- A request payload: a finite mapping from feature names to values
(Python dict), embedded as an association list with first-match
lookup. -/
abbrev Payload := List (String × PyVal)

/-- Python `f in payload`: key membership in the dict. -/
def hasKey (payload : Payload) (f : String) : Bool :=
  (List.lookup f payload).isSome

/-- The per-request errors `predict_one` can raise: the `ValueError`
listing the missing features, and the coercion failure when a supplied
value cannot convert to a number (the spec's "type error"). -/
inductive PredictError where
  | missingFeatures (missing : List String)
  | typeError
deriving DecidableEq, Repr

/-- `str(e)`: the human-readable message of a per-request error. -/
def PredictError.message : PredictError → String
  | PredictError.missingFeatures ms =>
      "Missing features: [" ++ String.intercalate ", " ms ++ "]"
  | PredictError.typeError => "could not convert value to float"

/-- `ModelService`: the loaded model (opaque regression function from
an ordered numeric row to one numeric output) and the ordered feature
list it expects. -/
structure ModelService where
  model : List ℚ → ℚ
  features : List String

/-- The dict comprehension `{f: float(payload[f]) for f in features}`
read off in feature order: look each name up and coerce; the first
value that fails to coerce raises (`none`). -/
def coerceRow (payload : Payload) : List String → Option (List ℚ)
  | [] => some []
  | f :: fs =>
      match (List.lookup f payload).bind PyVal.toFloat with
      | none => none
      | some q =>
          match coerceRow payload fs with
          | none => none
          | some qs => some (q :: qs)

/-- `ModelService.predict_one`, state-passing translation: the missing
check, the coercion to an ordered row, the model call and the scalar
unwrap. The method body only reads `s` and `payload`, so both come
back unchanged in the second component. -/
def predict_one_impl (s : ModelService) (payload : Payload) :
    (Except PredictError ℚ) × ModelService × Payload :=
  let missing := s.features.filter fun f => ! hasKey payload f
  (if missing.isEmpty then
    match coerceRow payload s.features with
    | none => Except.error PredictError.typeError
    | some row => Except.ok (s.model row)
  else
    Except.error (PredictError.missingFeatures missing), s, payload)

/-- The value `ModelService.predict_one` returns (or the error it
raises). -/
def predict_one (s : ModelService) (payload : Payload) :
    Except PredictError ℚ :=
  (predict_one_impl s payload).1

/-- A JSON value of the metadata record `model_info.json`. -/
inductive JVal where
  | jnull
  | jbool (b : Bool)
  | jnum (q : ℚ)
  | jstr (s : String)
  | jlist (xs : List JVal)

/-- `isinstance(x, str)` on a JSON value. -/
def JVal.isStr : JVal → Bool
  | JVal.jstr _ => true
  | _ => false

/-- The string carried by a `jstr` value (defaulting elsewhere; only
used under an all-strings guard, as in the source). -/
def JVal.strOf : JVal → String
  | JVal.jstr s => s
  | _ => ""

/-- `build_default_service` after the file loads: given the parsed
metadata record and the deserialized model, extract `model2_features`
with `info.get`, require a list of strings, and assemble the service;
otherwise raise the configuration `ValueError`. -/
def build_default_service (info : List (String × JVal))
    (model : List ℚ → ℚ) : Except String ModelService :=
  match List.lookup "model2_features" info with
  | some (JVal.jlist xs) =>
      if xs.all JVal.isStr then
        Except.ok ⟨model, xs.map JVal.strOf⟩
      else
        Except.error "model_info.json missing valid model2_features list"
  | _ => Except.error "model_info.json missing valid model2_features list"

/-- A filesystem path, abstracted by its name; existence is a
predicate supplied to the resolution function. -/
abbrev FsPath := String

/-- The `for p in candidates: if p.exists(): return p` loop of
`resolve_existing_path`. -/
def resolveLoop (ex : FsPath → Bool) : List FsPath → Option FsPath
  | [] => none
  | p :: ps => if ex p then some p else resolveLoop ex ps

/-- `resolve_existing_path`: first existing candidate, else the first
candidate; `none` models the `IndexError` of `candidates[0]` on an
empty candidate list. -/
def resolve_existing_path (ex : FsPath → Bool)
    (candidates : List FsPath) : Option FsPath :=
  match resolveLoop ex candidates with
  | some p => some p
  | none => candidates.head?

/-- The `PredictRequest` body model of `main.py`: eight required
numeric fields matching the model2 feature names. -/
structure PredictRequest where
  MedInc : ℚ
  HouseAge : ℚ
  AveRooms : ℚ
  AveBedrms : ℚ
  Population : ℚ
  AveOccup : ℚ
  Latitude : ℚ
  Longitude : ℚ

/-- `req.model_dump()`: the plain dict of the eight fields, in field
order. -/
def PredictRequest.model_dump (r : PredictRequest) : Payload :=
  [("MedInc", PyVal.num r.MedInc), ("HouseAge", PyVal.num r.HouseAge),
   ("AveRooms", PyVal.num r.AveRooms), ("AveBedrms", PyVal.num r.AveBedrms),
   ("Population", PyVal.num r.Population), ("AveOccup", PyVal.num r.AveOccup),
   ("Latitude", PyVal.num r.Latitude), ("Longitude", PyVal.num r.Longitude)]

/-- The outcome at the HTTP boundary of `/predict`: a successful
response (prediction plus the echoed features), an `HTTPException`
with status and detail, or a re-raised per-request error (debug
mode). -/
inductive HttpOutcome where
  | success (prediction : ℚ) (features_used : Payload)
  | httpError (status : Nat) (detail : String)
  | raised (e : PredictError)
deriving Repr

/-- The `/predict` handler of `main.py`: dump the request, call
`service.predict_one`; on error, re-raise when `debug` is set,
otherwise answer HTTP 400 carrying `str(e)`. -/
def predict_endpoint (service : ModelService) (req : PredictRequest)
    (debug : Bool) : HttpOutcome :=
  let payload := req.model_dump
  match predict_one service payload with
  | Except.ok pred => HttpOutcome.success pred payload
  | Except.error e =>
      if debug then HttpOutcome.raised e
      else HttpOutcome.httpError 400 e.message

/-! ### Helper lemmas -/

/-- Looking a feature up past a prepended pair with a different key is
unchanged (dict update with a fresh key). -/
theorem lookup_cons_ne (k f : String) (v : PyVal) (p : Payload)
    (h : f ≠ k) : List.lookup f ((k, v) :: p) = List.lookup f p := by
  have hbeq : (f == k) = false := by simp [h]
  simp [List.lookup, hbeq]

/-- A feature whose lookup succeeds is a key of the payload. -/
theorem hasKey_of_lookup (payload : Payload) (f : String) (v : PyVal)
    (h : List.lookup f payload = some v) : hasKey payload f = true := by
  simp [hasKey, h]

/-- When every feature of `l` maps to the coercible value `vals f`,
the coerced row is exactly the value map over `l`. -/
theorem coerceRow_eq_map (payload : Payload) (vals : String → ℚ) :
    ∀ l : List String,
      (∀ f ∈ l, List.lookup f payload = some (PyVal.num (vals f))) →
      coerceRow payload l = some (l.map vals)
  | [], _ => rfl
  | f :: fs, h => by
      have hf := h f (by simp)
      have ih := coerceRow_eq_map payload vals fs
        (fun g hg => h g (by simp [hg]))
      simp [coerceRow, hf, PyVal.toFloat, ih]

/-- When every feature of `l` has some coercible value, coercion
produces some row. -/
theorem coerceRow_isSome (payload : Payload) :
    ∀ l : List String,
      (∀ f ∈ l, ∃ q, List.lookup f payload = some (PyVal.num q)) →
      ∃ row, coerceRow payload l = some row
  | [], _ => ⟨[], rfl⟩
  | f :: fs, h => by
      obtain ⟨q, hq⟩ := h f (by simp)
      obtain ⟨row, hrow⟩ := coerceRow_isSome payload fs
        (fun g hg => h g (by simp [hg]))
      exact ⟨q :: row, by simp [coerceRow, hq, PyVal.toFloat, hrow]⟩

/-- When every feature of `l` is a key of the payload, the missing
list is empty. -/
theorem missing_filter_nil (payload : Payload) (l : List String)
    (h : ∀ f ∈ l, hasKey payload f = true) :
    (l.filter fun f => ! hasKey payload f) = [] := by
  rw [List.filter_eq_nil_iff]
  intro f hf
  simp [h f hf]

/-! ### Claim theorems -/

/-- Claim C1: for every payload containing a numerically coercible
value for every name in the feature list, `predict_one` returns the
model applied to the single-row vector obtained by looking up each
feature name in feature-list order and coercing to floating point. -/
theorem predict_one_valid_eval (s : ModelService) (payload : Payload)
    (vals : String → ℚ)
    (h : ∀ f ∈ s.features, List.lookup f payload = some (PyVal.num (vals f))) :
    predict_one s payload = Except.ok (s.model (s.features.map vals)) := by
  have hmiss : (s.features.filter fun f => ! hasKey payload f) = [] :=
    missing_filter_nil payload s.features
      (fun f hf => hasKey_of_lookup payload f _ (h f hf))
  have hrow := coerceRow_eq_map payload vals s.features h
  simp [predict_one, predict_one_impl, hmiss, hrow]

/-- Witness for C1: a two-feature service evaluated on a concrete
payload. -/
theorem predict_one_valid_eval_witness :
    predict_one ⟨fun row => row.headD 0, ["a", "b"]⟩
        [("a", PyVal.num 1), ("b", PyVal.num 2)] =
      Except.ok ((fun row : List ℚ => row.headD 0)
        (List.map (fun f => if f = "a" then (1 : ℚ) else 2) ["a", "b"])) :=
  predict_one_valid_eval ⟨fun row => row.headD 0, ["a", "b"]⟩
    [("a", PyVal.num 1), ("b", PyVal.num 2)]
    (fun f => if f = "a" then (1 : ℚ) else 2) (by decide)

/-- Claim C2: for every payload lacking at least one required feature,
`predict_one` fails with the validation error naming exactly the
feature-list names absent from the payload, in feature-list order. -/
theorem predict_one_missing_features (s : ModelService) (payload : Payload)
    (h : ∃ f ∈ s.features, hasKey payload f = false) :
    predict_one s payload =
      Except.error (PredictError.missingFeatures
        (s.features.filter fun f => ! hasKey payload f))
    ∧ ∀ g, (g ∈ s.features.filter fun f => ! hasKey payload f) ↔
        (g ∈ s.features ∧ hasKey payload g = false) := by
  obtain ⟨f, hf, hkey⟩ := h
  have hmem : f ∈ s.features.filter fun f => ! hasKey payload f :=
    List.mem_filter.mpr ⟨hf, by simp [hkey]⟩
  have hne : (s.features.filter fun f => ! hasKey payload f) ≠ [] :=
    List.ne_nil_of_mem hmem
  constructor
  · have hempty :
        (s.features.filter fun f => ! hasKey payload f).isEmpty = false := by
      simpa [List.isEmpty_iff] using hne
    simp [predict_one, predict_one_impl, hempty]
  · intro g
    simp [List.mem_filter]

/-- Witness for C2: feature list `["a", "b"]`, payload providing only
`"b"`; the error names exactly `["a"]`. -/
theorem predict_one_missing_features_witness :
    predict_one ⟨fun _ => (0 : ℚ), ["a", "b"]⟩ [("b", PyVal.num 0)] =
      Except.error (PredictError.missingFeatures ["a"]) :=
  ((predict_one_missing_features _ _ ⟨"a", by decide, by rfl⟩).1).trans (by rfl)

/-- Claim C7: for every valid payload (a coercible value for every
required feature), `predict_one` returns a value and never raises; in
this rational-valued embedding every returned value is a finite
number. -/
theorem predict_one_total_on_valid (s : ModelService) (payload : Payload)
    (h : ∀ f ∈ s.features, ∃ q, List.lookup f payload = some (PyVal.num q)) :
    ∃ y : ℚ, predict_one s payload = Except.ok y := by
  have hmiss : (s.features.filter fun f => ! hasKey payload f) = [] :=
    missing_filter_nil payload s.features
      (fun f hf => by
        obtain ⟨q, hq⟩ := h f hf
        exact hasKey_of_lookup payload f _ hq)
  obtain ⟨row, hrow⟩ := coerceRow_isSome payload s.features h
  exact ⟨s.model row, by simp [predict_one, predict_one_impl, hmiss, hrow]⟩

/-- Witness for C7: a one-feature service on a concrete payload. -/
theorem predict_one_total_on_valid_witness :
    ∃ y : ℚ, predict_one ⟨fun _ => (5 : ℚ), ["a"]⟩
        [("a", PyVal.num 3), ("x", PyVal.nonNum)] = Except.ok y :=
  predict_one_total_on_valid _ _
    (fun f hf => ⟨3, by
      have hfa : f = "a" := by simpa using hf
      subst hfa
      rfl⟩)

/-- Coercing a row is unchanged by a prepended pair whose key is none
of the looked-up features. -/
theorem coerceRow_cons_fresh (p : Payload) (k : String) (v : PyVal) :
    ∀ l : List String, (∀ f ∈ l, f ≠ k) →
      coerceRow ((k, v) :: p) l = coerceRow p l
  | [], _ => rfl
  | f :: fs, h => by
      have hf := lookup_cons_ne k f v p (h f (by simp))
      have ih := coerceRow_cons_fresh p k v fs (fun g hg => h g (by simp [hg]))
      simp [coerceRow, hf, ih]

/-- One feature with a non-coercible value makes the whole row
coercion fail. -/
theorem coerceRow_none_of_bad (p : Payload) (f : String)
    (hbad : (List.lookup f p).bind PyVal.toFloat = none) :
    ∀ l : List String, f ∈ l → coerceRow p l = none
  | g :: fs, hf => by
      rcases List.mem_cons.mp hf with he | hm
      · subst he
        simp [coerceRow, hbad]
      · have ih := coerceRow_none_of_bad p f hbad fs hm
        cases h : (List.lookup g p).bind PyVal.toFloat <;>
          simp [coerceRow, h, ih]

/-- Claim C3: adding a key outside the feature list to a payload on
which `predict_one` succeeds leaves the prediction unchanged. -/
theorem predict_one_extra_key_ignored (s : ModelService) (payload : Payload)
    (k : String) (v : PyVal) (y : ℚ)
    (hk : k ∉ s.features) (hy : predict_one s payload = Except.ok y) :
    predict_one s ((k, v) :: payload) = Except.ok y := by
  have hne : ∀ f ∈ s.features, f ≠ k := fun f hf he => hk (he ▸ hf)
  have h1 : (s.features.filter fun f => ! hasKey ((k, v) :: payload) f)
      = s.features.filter fun f => ! hasKey payload f := by
    apply List.filter_congr
    intro f hf
    simp [hasKey, lookup_cons_ne k f v payload (hne f hf)]
  have h2 : coerceRow ((k, v) :: payload) s.features
      = coerceRow payload s.features :=
    coerceRow_cons_fresh payload k v s.features hne
  simp only [predict_one, predict_one_impl] at hy ⊢
  rw [h1, h2]
  exact hy

/-- Witness for C3: adding the unused key `"z"` with a non-coercible
value does not change the prediction. -/
theorem predict_one_extra_key_ignored_witness :
    predict_one ⟨fun _ => (7 : ℚ), ["a"]⟩
        [("z", PyVal.nonNum), ("a", PyVal.num 1)] = Except.ok 7 :=
  predict_one_extra_key_ignored ⟨fun _ => (7 : ℚ), ["a"]⟩
    [("a", PyVal.num 1)] "z" PyVal.nonNum 7 (by decide) (by rfl)

/-- Claim C6: a payload providing every required feature but a
non-coercible value for some required feature makes `predict_one` fail
with the coercion ("type") error. -/
theorem predict_one_type_error (s : ModelService) (payload : Payload)
    (hall : ∀ f ∈ s.features, hasKey payload f = true)
    (hbad : ∃ f ∈ s.features,
      (List.lookup f payload).bind PyVal.toFloat = none) :
    predict_one s payload = Except.error PredictError.typeError := by
  have hmiss := missing_filter_nil payload s.features hall
  obtain ⟨f, hf, hb⟩ := hbad
  have hrow := coerceRow_none_of_bad payload f hb s.features hf
  simp [predict_one, predict_one_impl, hmiss, hrow]

/-- Witness for C6: the single feature is present but carries a
non-coercible value. -/
theorem predict_one_type_error_witness :
    predict_one ⟨fun _ => (0 : ℚ), ["a"]⟩ [("a", PyVal.nonNum)] =
      Except.error PredictError.typeError :=
  predict_one_type_error _ _ (by decide) ⟨"a", by decide, by rfl⟩

/-- Claim C8: `predict_one` has no side effects: the state-passing
translation returns the service and the payload unchanged on every
input, so the service is a pure transform after construction. -/
theorem predict_one_no_side_effects (s : ModelService) (payload : Payload) :
    (predict_one_impl s payload).2 = (s, payload) := rfl

/-- Extracting the strings back out of a list of string JSON values. -/
theorem strOf_map_jstr (fs : List String) :
    List.map (JVal.strOf ∘ JVal.jstr) fs = fs := by
  induction fs with
  | nil => rfl
  | cons a l ih => simp [Function.comp, JVal.strOf, ih]

/-- A list of string JSON values passes the all-strings check. -/
theorem all_isStr_map_jstr (fs : List String) :
    (fs.map JVal.jstr).all JVal.isStr = true := by
  induction fs with
  | nil => rfl
  | cons a l ih => simp [JVal.isStr, ih]

/-- Claim C4: when the metadata record has no `model2_features` list
(missing or not a list), or the list has a non-string entry,
`build_default_service` fails with the configuration error; when the
field is a list of strings, it succeeds and the feature list of the
service equals that list. -/
theorem build_default_service_validation (info : List (String × JVal))
    (model : List ℚ → ℚ) (fs : List String) :
    ((∀ xs, List.lookup "model2_features" info ≠ some (JVal.jlist xs)) →
      ∃ msg, build_default_service info model = Except.error msg)
    ∧ (∀ xs, List.lookup "model2_features" info = some (JVal.jlist xs) →
        ¬ xs.all JVal.isStr = true →
        ∃ msg, build_default_service info model = Except.error msg)
    ∧ (List.lookup "model2_features" info
          = some (JVal.jlist (fs.map JVal.jstr)) →
        build_default_service info model = Except.ok ⟨model, fs⟩) := by
  refine ⟨?_, ?_, ?_⟩
  · intro h
    refine ⟨"model_info.json missing valid model2_features list", ?_⟩
    unfold build_default_service
    cases hl : List.lookup "model2_features" info with
    | none => rfl
    | some v =>
        cases v with
        | jlist xs => exact absurd hl (h xs)
        | jnull => rfl
        | jbool b => rfl
        | jnum q => rfl
        | jstr t => rfl
  · intro xs hl hall
    refine ⟨"model_info.json missing valid model2_features list", ?_⟩
    have hfalse : xs.all JVal.isStr = false := by
      cases hx : xs.all JVal.isStr with
      | true => exact absurd hx hall
      | false => rfl
    simp [build_default_service, hl, hfalse]
  · intro hl
    simp [build_default_service, hl, all_isStr_map_jstr, strOf_map_jstr]

/-- Witness for C4: a missing field, a list with a numeric entry, and
a proper list of strings. -/
theorem build_default_service_validation_witness :
    (∃ msg, build_default_service [] (fun _ => (0 : ℚ))
      = Except.error msg)
    ∧ (∃ msg, build_default_service
        [("model2_features", JVal.jlist [JVal.jnum 1])] (fun _ => (0 : ℚ))
      = Except.error msg)
    ∧ build_default_service
        [("model2_features", JVal.jlist [JVal.jstr "a"])] (fun _ => (0 : ℚ))
      = Except.ok ⟨fun _ => (0 : ℚ), ["a"]⟩ :=
  ⟨(build_default_service_validation [] (fun _ => (0 : ℚ)) []).1
      (fun xs h => Option.noConfusion h),
   (build_default_service_validation _ (fun _ => (0 : ℚ)) []).2.1
      [JVal.jnum 1] rfl (by decide),
   (build_default_service_validation _ (fun _ => (0 : ℚ)) ["a"]).2.2 rfl⟩

/-- The scan loop returns the first candidate satisfying the existence
predicate. -/
theorem resolveLoop_append_first (ex : FsPath → Bool) (p : FsPath)
    (post : List FsPath) (hp : ex p = true) :
    ∀ pre : List FsPath, (∀ q ∈ pre, ex q = false) →
      resolveLoop ex (pre ++ p :: post) = some p
  | [], _ => by simp [resolveLoop, hp]
  | q :: pre, hq => by
      have h1 : ex q = false := hq q (by simp)
      have ih := resolveLoop_append_first ex p post hp pre
        (fun r hr => hq r (by simp [hr]))
      simp [resolveLoop, h1, ih]

/-- The scan loop finds nothing when no candidate exists. -/
theorem resolveLoop_none (ex : FsPath → Bool) :
    ∀ l : List FsPath, (∀ p ∈ l, ex p = false) → resolveLoop ex l = none
  | [], _ => rfl
  | p :: ps, h => by
      have h1 : ex p = false := h p (by simp)
      have ih := resolveLoop_none ex ps (fun q hq => h q (by simp [hq]))
      simp [resolveLoop, h1, ih]

/-- Claim C5: on a non-empty candidate list, path resolution returns
the first candidate that exists; when none exists it returns the first
candidate unchanged. -/
theorem resolve_existing_path_first (ex : FsPath → Bool)
    (candidates : List FsPath) (h : candidates ≠ []) :
    (∀ pre p post, candidates = pre ++ p :: post → ex p = true →
        (∀ q ∈ pre, ex q = false) →
        resolve_existing_path ex candidates = some p)
    ∧ ((∀ p ∈ candidates, ex p = false) →
        resolve_existing_path ex candidates = some (candidates.head h)) := by
  constructor
  · intro pre p post hc hp hpre
    subst hc
    simp [resolve_existing_path,
      resolveLoop_append_first ex p post hp pre hpre]
  · intro hall
    have hnone := resolveLoop_none ex candidates hall
    cases candidates with
    | nil => exact absurd rfl h
    | cons a l => simp [resolve_existing_path, hnone]

/-- Witness for C5: with candidates `["A", "B"]`, if only `"B"` exists
the result is `"B"`; if neither exists the result is `"A"`. -/
theorem resolve_existing_path_first_witness :
    resolve_existing_path (fun p => p == "B") ["A", "B"] = some "B"
    ∧ resolve_existing_path (fun _ => false) ["A", "B"] = some "A" :=
  ⟨(resolve_existing_path_first (fun p => p == "B") ["A", "B"]
      (by decide)).1 ["A"] "B" [] rfl (by decide) (by decide),
   (resolve_existing_path_first (fun _ => false) ["A", "B"]
      (by decide)).2 (by decide)⟩

/-- Claim C9: at the `/predict` boundary, every error the core raises
is turned into an HTTP 400 carrying the error message when `debug` is
off, and re-raised unchanged when `debug` is on. -/
theorem predict_endpoint_error_policy (service : ModelService)
    (req : PredictRequest) (e : PredictError)
    (h : predict_one service req.model_dump = Except.error e) :
    predict_endpoint service req false
      = HttpOutcome.httpError 400 e.message
    ∧ predict_endpoint service req true = HttpOutcome.raised e := by
  constructor <;> simp [predict_endpoint, h]

/-- Witness for C9: a service requiring a feature the request model
never provides, so the core raises the missing-features error. -/
theorem predict_endpoint_error_policy_witness :
    predict_endpoint ⟨fun _ => (0 : ℚ), ["Foo"]⟩ ⟨0, 0, 0, 0, 0, 0, 0, 0⟩
        false
      = HttpOutcome.httpError 400
          (PredictError.missingFeatures ["Foo"]).message
    ∧ predict_endpoint ⟨fun _ => (0 : ℚ), ["Foo"]⟩ ⟨0, 0, 0, 0, 0, 0, 0, 0⟩
        true
      = HttpOutcome.raised (PredictError.missingFeatures ["Foo"]) :=
  predict_endpoint_error_policy _ _ (PredictError.missingFeatures ["Foo"])
    (by rfl)

/-- Claim C10: an empty `model2_features` list is accepted by
`build_default_service` (vacuously a list of strings), and the
resulting service never raises the missing-features validation error
on any payload. -/
theorem build_empty_features_accepted (info : List (String × JVal))
    (model : List ℚ → ℚ)
    (h : List.lookup "model2_features" info = some (JVal.jlist [])) :
    build_default_service info model = Except.ok ⟨model, []⟩
    ∧ ∀ (payload : Payload) (ms : List String),
        predict_one ⟨model, []⟩ payload ≠
          Except.error (PredictError.missingFeatures ms) := by
  constructor
  · simp [build_default_service, h]
  · intro payload ms
    simp [predict_one, predict_one_impl, coerceRow]

/-- Witness for C10: the concrete empty-list metadata record, with the
never-missing property instantiated at the empty payload. -/
theorem build_empty_features_accepted_witness :
    build_default_service [("model2_features", JVal.jlist [])]
        (fun _ => (2 : ℚ)) = Except.ok ⟨fun _ => (2 : ℚ), []⟩
    ∧ predict_one ⟨fun _ => (2 : ℚ), []⟩ [] ≠
        Except.error (PredictError.missingFeatures []) :=
  ⟨(build_empty_features_accepted [("model2_features", JVal.jlist [])]
      (fun _ => (2 : ℚ)) rfl).1,
   (build_empty_features_accepted [("model2_features", JVal.jlist [])]
      (fun _ => (2 : ℚ)) rfl).2 [] []⟩
